import Mathlib

/-
Verification of the gojsonclient repository (a JSON/REST HTTP client with
retry/backoff) against its natural-language specification.

The repository carries two variants of the implementation:
  * src/client.go — an older variant in which the request/response no-body
    marker is the distinguished type Void (matched by a dynamic type switch),
    and the Request stores its Client.
  * src/README.md — the current variant, embedded in the README after the
    separator; it matches src/client_test.go and src/unnamed/part_000
    (it has WithIgnoreResponseBody, a Client.Use method, Do(ctx, client, req),
    and the request no-body decision is the nil-interface test
    any(req.req) != nil).
Definitions for the current variant live directly in namespace Gojsonclient;
definitions for the older variant live in namespace Gojsonclient.ClientGo.

Machine integers (Go int, HTTP status codes, time.Duration) are modelled as
Int; none of the verified properties exercise overflow. Go errors are
modelled by the inductive GoErr below, with fmt.Errorf("...: %w", err)
modelled by GoErr.wrapped and errors.Is(err, context.Canceled) by
GoErr.isCanceled. Functions that can fail return Except. Calls into the
user-supplied encode/decode functions are counted explicitly so that the
claims of the form "the decode function is never invoked" are statable.
-/

namespace Gojsonclient

/-- Go error values, as far as this code base distinguishes them.
wrapped msg e models fmt.Errorf(msg ++ ": %w", e); abortError models
gobackoff.AbortError with its Err field; maxAttemptsError models
gobackoff.MaxAttemptsError; canceled models context.Canceled;
httpErr models the httpError string type of client.go. -/
inductive GoErr : Type where
  | canceled : GoErr
  | simple : String → GoErr
  | httpErr : String → GoErr
  | wrapped : String → GoErr → GoErr
  | abortError : GoErr → GoErr
  | maxAttemptsError : GoErr
deriving Repr, DecidableEq

/-- errors.Is(e, context.Canceled): true when context.Canceled sits in the
wrap chain. gobackoff.AbortError wraps its Err field. -/
def GoErr.isCanceled : GoErr → Bool
  | .canceled => true
  | .wrapped _ inner => inner.isCanceled
  | .abortError inner => inner.isCanceled
  | _ => false

/-- Whether the error is the distinguished gobackoff.AbortError kind
(detected by the backoff collaborator to stop immediately). -/
def GoErr.isAbort : GoErr → Bool
  | .abortError _ => true
  | _ => false

/-- An HTTP response as far as this code base reads it: status code, status
text, and the raw body bytes handed to the decode function. -/
structure HTTPRes where
  statusCode : Int
  status : String
  body : String
deriving Repr, DecidableEq

/-- An HTTP request as built by newHTTPRequest: method, joined URL, body
(none models http.NoBody) and headers. -/
structure HTTPReq where
  method : String
  url : String
  body : Option String
  headers : List (String × String)
deriving Repr, DecidableEq

/-- http.Header.Set: replaces any existing value for the key. -/
def setHeader (headers : List (String × String)) (key val : String) :
    List (String × String) :=
  (headers.filter (fun kv => kv.1 ≠ key)) ++ [(key, val)]

/-- A Go interface value used as the request payload. nilInterface is the
untyped nil interface (any(x) == nil is true only for it); nilPointer is a
typed nil pointer boxed in an interface (any(x) != nil); value is any other
value, tagged by its JSON text for the default codec. -/
inductive GoValue : Type where
  | nilInterface : GoValue
  | nilPointer : GoValue
  | value : String → GoValue
deriving Repr, DecidableEq, Inhabited

/-- The Go test any(x) == nil on an interface value. -/
def GoValue.isNilInterface : GoValue → Bool
  | .nilInterface => true
  | _ => false

/-- Modelled from the default JSON codec (the external collaborator
json.MarshalWrite): a nil pointer encodes as the JSON literal null; a value
encodes to its JSON text. Only these facts are used by the claims. -/
def defaultMarshalJSON : GoValue → Except GoErr String
  | .nilInterface => .ok "null"
  | .nilPointer => .ok "null"
  | .value s => .ok s

/-- RetryFunc (the context argument is dropped: no retry function in this
development inspects it). A new attempt is made when the result is none. -/
def RetryFunc : Type := Option HTTPRes → Option GoErr → Option GoErr

/-- A request middleware: RequestMiddlewareFunc mutates the *http.Request,
modelled as a transformer that may fail. -/
def Middleware : Type := HTTPReq → Except GoErr HTTPReq

/-- Client (current variant): configuration fields read at execution time.
The logger, the HTTP transport handle and the backoff collaborator are
external and do not appear as data here; the transport behaviour is passed
to the attempt executor per attempt, and the backoff collaborator is
modelled by backoffDo below. -/
structure Client where
  baseURI : String
  requestMiddlewares : List Middleware
  requestTimeout : Int
  maxAttempts : Int
  retryFunc : RetryFunc

/-- The default retry function installed by New: abort with httpError when a
response is present and its status code is http.StatusBadRequest (400). -/
def defaultRetryFunc : RetryFunc := fun httpRes _err =>
  match httpRes with
  | some r => if r.statusCode = 400 then some (.httpErr r.status) else none
  | none => none

/-- A ClientOpt mutates the Client under construction. -/
def ClientOpt : Type := Client → Client

/-- The Client defaults set by New: empty base URI, no middlewares, request
timeout 30s (in nanoseconds, as time.Duration), 5 attempts, default retry
function. -/
def defaultClient : Client :=
  { baseURI := ""
    requestMiddlewares := []
    requestTimeout := 30 * 1000000000
    maxAttempts := 5
    retryFunc := defaultRetryFunc }

/-- New applies the options in order to the default Client. -/
def New (opts : List ClientOpt) : Client :=
  opts.foldl (fun c o => o c) defaultClient

/-- WithMaxAttempts: the Go function checks max before returning the option
and is fatal (a runtime panic) when max < 1; the fatal path is modelled as
Except.error carrying the panic message. -/
def WithMaxAttempts (max : Int) : Except String ClientOpt :=
  if max < 1 then .error "max must be >=1"
  else .ok (fun c => { c with maxAttempts := max })

/-- WithRetry: the Go function checks retry before returning the option and
is fatal (a runtime panic) when retry is nil; a nilable Go function value is
modelled as Option RetryFunc and the fatal path as Except.error. -/
def WithRetry (retry : Option RetryFunc) : Except String ClientOpt :=
  match retry with
  | none => .error "retry must not be nil"
  | some f => .ok (fun c => { c with retryFunc := f })

/-- WithRequestTimeout stores the per-attempt timeout. -/
def WithRequestTimeout (timeout : Int) : ClientOpt :=
  fun c => { c with requestTimeout := timeout }

/-- WithBaseURI stores the URI prefix. -/
def WithBaseURI (baseURI : String) : ClientOpt :=
  fun c => { c with baseURI := baseURI }

/-- WithRequestMiddleware appends a middleware (through Client.Use in the
current variant). -/
def WithRequestMiddleware (fun_ : Middleware) : ClientOpt :=
  fun c => { c with requestMiddlewares := c.requestMiddlewares ++ [fun_] }

/-- Request (current variant). The Req type parameter is instantiated at
GoValue so that the Go interface-value tests of the source are expressible;
the Res type parameter stays generic, with Inhabited giving the Go zero
value of Res. -/
structure Request (Res : Type) where
  uri : String
  method : String
  req : GoValue
  ignoreResponseBody : Bool
  marshalRequest : GoValue → Except GoErr String
  unmarshalResponse : HTTPRes → Except GoErr Res

/-- A RequestOpt mutates the Request under construction. -/
def RequestOpt (Res : Type) : Type := Request Res → Request Res

/-- NewRequest: defaults to the JSON codec, ignore flag unset, then applies
the options in order. The default decode function for Res is a parameter
(in Go it is produced per instantiation by the generic json.UnmarshalRead). -/
def NewRequest {Res : Type} (uri method : String) (req : GoValue)
    (defaultUnmarshal : HTTPRes → Except GoErr Res)
    (opts : List (RequestOpt Res)) : Request Res :=
  opts.foldl (fun r o => o r)
    { uri := uri
      method := method
      req := req
      ignoreResponseBody := false
      marshalRequest := defaultMarshalJSON
      unmarshalResponse := defaultUnmarshal }

/-- WithIgnoreResponseBody sets the ignore flag. -/
def WithIgnoreResponseBody {Res : Type} : RequestOpt Res :=
  fun r => { r with ignoreResponseBody := true }

/-- Response: decoded payload, HTTP status code, HTTP status text. -/
structure Response (Res : Type) where
  res : Res
  statusCode : Int
  status : String

/-- Result of building the HTTP request, together with the number of calls
made to the marshal function (for the claims that say the encode function
is never invoked). -/
structure BuildResult where
  result : Except GoErr HTTPReq
  marshalCalls : Nat

/-- The middleware loop of newHTTPRequest: each middleware is applied in
order; the first failing one aborts with its error wrapped as
"request middleware". -/
def applyMiddlewares : List Middleware → HTTPReq → Except GoErr HTTPReq
  | [], r => .ok r
  | m :: ms, r =>
    match m r with
    | .error e => .error (.wrapped "request middleware" e)
    | .ok r2 => applyMiddlewares ms r2

/-- Shared tail of newHTTPRequest in both variants: build the request with
the joined URI and the body, set the two default headers, then run the
middleware chain. http.NewRequestWithContext failures (malformed method or
URL) are outside the verified claims and are not modelled. -/
def finishHTTPRequest (baseURI uri method : String)
    (middlewares : List Middleware) (body : Option String) :
    Except GoErr HTTPReq :=
  applyMiddlewares middlewares
    { method := method
      url := baseURI ++ uri
      body := body
      headers := setHeader
        (setHeader [] "Content-Type" "application/json; charset=UTF-8")
        "Accept" "application/json" }

/-- newHTTPRequest (current variant, README-embedded): the body stays
http.NoBody when any(req.req) == nil, otherwise the marshal function is
invoked into a buffer; an encode failure returns the error wrapped as
"encode request body". -/
def newHTTPRequest {Res : Type} (client : Client) (req : Request Res) :
    BuildResult :=
  match (if req.req.isNilInterface then ((.ok none : Except GoErr (Option String)), 0)
      else
        match req.marshalRequest req.req with
        | .error e => (.error (.wrapped "encode request body" e), 1)
        | .ok s => (.ok (some s), 1)) with
  | (.error e, n) => ⟨.error e, n⟩
  | (.ok body, n) =>
      ⟨finishHTTPRequest client.baseURI req.uri req.method
        client.requestMiddlewares body, n⟩

/-- Result of interpreting the HTTP response, together with the number of
calls made to the unmarshal function (for the claims that say the decode
function is never invoked). -/
structure RespResult (Res : Type) where
  result : Except GoErr (Response Res)
  unmarshalCalls : Nat

/-- response (current variant, README-embedded): status 204 or the ignore
flag short-circuits with the zero-value payload; otherwise the unmarshal
function decodes the body, a failure being wrapped as "decode response". -/
def response {Res : Type} [Inhabited Res] (httpRes : HTTPRes)
    (req : Request Res) : RespResult Res :=
  if httpRes.statusCode = 204 ∨ req.ignoreResponseBody then
    ⟨.ok { res := default, statusCode := httpRes.statusCode,
           status := httpRes.status }, 0⟩
  else
    match req.unmarshalResponse httpRes with
    | .error e => ⟨.error (.wrapped "decode response" e), 1⟩
    | .ok v => ⟨.ok { res := v, statusCode := httpRes.statusCode,
                      status := httpRes.status }, 1⟩

/-- The dynamic type of the Req or Res type argument, as tested by the type
switches of the older variant (src/client.go): the Void struct by value,
the pointer type to Void, or anything else. -/
inductive TypeKind : Type where
  | voidVal : TypeKind
  | voidPtr : TypeKind
  | other : TypeKind
deriving Repr, DecidableEq

namespace ClientGo

/-- newHTTPRequest (older variant, src/client.go): the type switch on
any(req.req) has empty bodies for both case Void and case *Void, so both
keep http.NoBody; only the default arm marshals. -/
def newHTTPRequest (baseURI uri method : String)
    (middlewares : List Middleware) (reqKind : TypeKind)
    (marshalRequestFunc : GoValue → Except GoErr String) (payload : GoValue) :
    BuildResult :=
  match (match reqKind with
      | .voidVal => ((.ok none : Except GoErr (Option String)), 0)
      | .voidPtr => ((.ok none : Except GoErr (Option String)), 0)
      | .other =>
        match marshalRequestFunc payload with
        | .error e => (.error (.wrapped "encode request body" e), 1)
        | .ok s => (.ok (some s), 1)) with
  | (.error e, n) => ⟨.error e, n⟩
  | (.ok body, n) => ⟨finishHTTPRequest baseURI uri method middlewares body, n⟩

/-- response (older variant, src/client.go): status 204 short-circuits with
the zero value. Then the type switch on any(jsonRes) reads

  switch any(jsonRes).(type) \x7b
  case Void:
  case *Void:
    return &Response[Res]\x7b...\x7d, nil
  \x7d

in which the case Void arm has an EMPTY body (Go switch cases do not fall
through), so for Res = Void execution leaves the switch and still reaches
the unmarshal call; only Res = *Void returns early with the zero value. -/
def response {Res : Type} [Inhabited Res] (resKind : TypeKind)
    (httpRes : HTTPRes)
    (unmarshalResponseFunc : HTTPRes → Except GoErr Res) : RespResult Res :=
  if httpRes.statusCode = 204 then
    ⟨.ok { res := default, statusCode := httpRes.statusCode,
           status := httpRes.status }, 0⟩
  else if resKind = .voidPtr then
    ⟨.ok { res := default, statusCode := httpRes.statusCode,
           status := httpRes.status }, 0⟩
  else
    match unmarshalResponseFunc httpRes with
    | .error e => ⟨.error (.wrapped "decode response" e), 1⟩
    | .ok v => ⟨.ok { res := v, statusCode := httpRes.statusCode,
                      status := httpRes.status }, 1⟩

end ClientGo

/-- A middleware preserves the request body when it only rewrites the other
fields (as the two stock auth middlewares do, which only set a header). -/
def preservesBody (m : Middleware) : Prop :=
  ∀ r r2, m r = .ok r2 → r2.body = r.body

/-- BasicAuth: sets the Authorization header (modelled without the base64
encoding of the credentials, which no claim inspects) and never fails. -/
def BasicAuth (login password : String) : Middleware :=
  fun r => .ok { r with
    headers := setHeader r.headers "Authorization"
      ("Basic " ++ login ++ ":" ++ password) }

/-- BearerAuth: sets the Authorization header verbatim and never fails. -/
def BearerAuth (token : String) : Middleware :=
  fun r => .ok { r with
    headers := setHeader r.headers "Authorization" ("Bearer " ++ token) }

/-- The middleware chain preserves the body when every middleware does. -/
theorem applyMiddlewares_body (ms : List Middleware)
    (hms : ∀ m ∈ ms, preservesBody m) :
    ∀ r r2, applyMiddlewares ms r = .ok r2 → r2.body = r.body := by
  induction ms with
  | nil =>
    intro r r2 h
    simp [applyMiddlewares] at h
    simp [h]
  | cons m ms ih =>
    intro r r2 h
    simp only [applyMiddlewares] at h
    match hm : m r with
    | .error e => simp [hm] at h
    | .ok rmid =>
      simp only [hm] at h
      have h1 := ih (fun x hx => hms x (List.mem_cons_of_mem m hx)) rmid r2 h
      have h2 := hms m (List.mem_cons_self m ms) r rmid hm
      rw [h1, h2]

/-- A successful finishHTTPRequest keeps the body it was given, provided the
middlewares preserve bodies. -/
theorem finishHTTPRequest_body (baseURI uri method : String)
    (ms : List Middleware) (hms : ∀ m ∈ ms, preservesBody m)
    (body : Option String) (r : HTTPReq)
    (h : finishHTTPRequest baseURI uri method ms body = .ok r) :
    r.body = body := by
  exact applyMiddlewares_body ms hms _ r h

/-- A cancellation scope (Go context.Context) as far as the deadline
plumbing of the do function is concerned: an optional absolute deadline.
Modelled from the Go standard library (external collaborator). -/
structure Ctx where
  deadline : Option Int
deriving Repr, DecidableEq

/-- Modelled from the Go standard library: context.WithTimeout derives a
context whose deadline is the parent deadline capped at now + d, so the
derived context is done as soon as either the parent scope ends or the
timeout elapses. -/
def withTimeout (now : Int) (ctx : Ctx) (d : Int) : Ctx :=
  { deadline := some (match ctx.deadline with
      | none => now + d
      | some dl => min dl (now + d)) }

/-- The context that actually governs the HTTP transmission of one attempt
in the do function (both variants, client.go lines 256-288 and the
README-embedded do): the request is built first, via
http.NewRequestWithContext(ctx, ...) on the callers context; only AFTER
that is ctx rebound with context.WithTimeout(ctx, client.requestTimeout),
and httpClient.Do(httpReq) reads the context stored inside httpReq, never
the rebound one (the rebinding is dead, as the nolint:ineffassign
annotation in the source records). The transmission therefore runs under
the caller context unchanged. -/
def transmissionCtx (callerCtx : Ctx) (_now _requestTimeout : Int) : Ctx :=
  callerCtx

/-- C2 (code bug): the per-attempt timeout never bounds the transmission.
The context under which httpClient.Do runs is the caller context unchanged,
for every timeout value; concretely, with a caller scope that has no
deadline and the default 30s timeout, the transmission context carries no
deadline at all, whereas the timeout context that the claim says governs
the attempt (and which the code builds but never uses) would carry the 30s
deadline. -/
theorem request_timeout_not_applied_to_transmission :
    (∀ callerCtx now t, transmissionCtx callerCtx now t = callerCtx) ∧
    (transmissionCtx ⟨none⟩ 0 (30 * 1000000000)).deadline = none ∧
    (withTimeout 0 ⟨none⟩ (30 * 1000000000)).deadline =
      some (30 * 1000000000) := by
  exact ⟨fun _ _ _ => rfl, rfl, rfl⟩

/-- A decode function that reports being called, to observe that the code
path reaches it. -/
def probeUnmarshal : HTTPRes → Except GoErr GoValue :=
  fun _ => .error (.simple "decode called")

/-- C3 (code bug): in the older variant (src/client.go response), a
response type of Void BY VALUE does not skip decoding: the case Void arm of
the type switch is empty, execution falls out of the switch, and the
unmarshal function is invoked (here on a 200 response, ignore flag absent
in this variant), so the result is a decode failure instead of the
zero-value Response that the claim and the client.go doc comments promise.
The *Void case, by contrast, behaves as documented. -/
theorem void_value_response_still_decodes :
    (ClientGo.response .voidVal ⟨200, "200 OK", ""⟩
      probeUnmarshal).unmarshalCalls = 1 ∧
    (ClientGo.response .voidVal ⟨200, "200 OK", ""⟩
      probeUnmarshal).result =
      .error (.wrapped "decode response" (.simple "decode called")) ∧
    (ClientGo.response .voidPtr ⟨200, "200 OK", ""⟩
      probeUnmarshal).unmarshalCalls = 0 := by
  exact ⟨rfl, rfl, rfl⟩

/-- C4: a no-body payload never reaches the encode function and yields an
empty body. In the current variant the no-body payload is the nil
interface; in the older variant it is the Void marker, by value or by
pointer (both arms of its type switch are empty there, so both skip the
default marshalling arm). The body statement is under the hypothesis that
the middlewares do not rewrite the body (the stock ones only set headers). -/
theorem no_body_marker_skips_encode {Res : Type} (client : Client)
    (req : Request Res)
    (hmw : ∀ m ∈ client.requestMiddlewares, preservesBody m)
    (hnil : req.req = .nilInterface)
    (baseURI uri method : String) (middlewares : List Middleware)
    (hmw2 : ∀ m ∈ middlewares, preservesBody m)
    (marshal : GoValue → Except GoErr String) (payload : GoValue)
    (reqKind : TypeKind) (hk : reqKind = .voidVal ∨ reqKind = .voidPtr) :
    ((newHTTPRequest client req).marshalCalls = 0 ∧
      ∀ hr, (newHTTPRequest client req).result = .ok hr → hr.body = none) ∧
    ((ClientGo.newHTTPRequest baseURI uri method middlewares reqKind
        marshal payload).marshalCalls = 0 ∧
      ∀ hr, (ClientGo.newHTTPRequest baseURI uri method middlewares reqKind
        marshal payload).result = .ok hr → hr.body = none) := by
  constructor
  · constructor
    · simp [newHTTPRequest, hnil, GoValue.isNilInterface]
    · intro hr h
      simp only [newHTTPRequest, hnil, GoValue.isNilInterface, if_pos] at h
      exact finishHTTPRequest_body _ _ _ _ hmw _ _ h
  · rcases hk with hk | hk <;> subst hk
    · constructor
      · simp [ClientGo.newHTTPRequest]
      · intro hr h
        simp only [ClientGo.newHTTPRequest] at h
        exact finishHTTPRequest_body _ _ _ _ hmw2 _ _ h
    · constructor
      · simp [ClientGo.newHTTPRequest]
      · intro hr h
        simp only [ClientGo.newHTTPRequest] at h
        exact finishHTTPRequest_body _ _ _ _ hmw2 _ _ h

/-- Witness for C4: a concrete nil-interface request under a client with
the BearerAuth middleware builds with no marshal call, and the older
variant with a Void payload does the same. -/
theorem no_body_marker_skips_encode_witness :
    ((newHTTPRequest
        (New [WithRequestMiddleware (BearerAuth "tok")])
        (NewRequest "/foo" "GET" .nilInterface
          (fun _ => (.ok (.value "x") : Except GoErr GoValue)) [])).marshalCalls
      = 0) ∧
    ((ClientGo.newHTTPRequest "" "/foo" "GET" [] .voidVal defaultMarshalJSON
        .nilInterface).marshalCalls = 0) := by
  have h := no_body_marker_skips_encode
    (New [WithRequestMiddleware (BearerAuth "tok")])
    (NewRequest "/foo" "GET" .nilInterface
      (fun _ => (.ok (.value "x") : Except GoErr GoValue)) [])
    (by
      intro m hm
      simp [New, defaultClient, WithRequestMiddleware, List.foldl] at hm
      subst hm
      intro r r2 hr
      simp [BearerAuth] at hr
      simp [← hr])
    rfl "" "/foo" "GET" [] (by intro m hm; simp at hm)
    defaultMarshalJSON .nilInterface .voidVal (Or.inl rfl)
  exact ⟨h.1.1, h.2.1⟩

/-- C8: a 204 status short-circuits response interpretation in both
variants: whatever the request options, the no-content check comes first,
the decode function is not invoked, and the Response carries the zero-value
payload with the status code and status text. -/
theorem no_content_skips_decode {Res : Type} [Inhabited Res]
    (httpRes : HTTPRes) (req : Request Res) (resKind : TypeKind)
    (unm : HTTPRes → Except GoErr Res) (h204 : httpRes.statusCode = 204) :
    response httpRes req =
      ⟨.ok { res := default, statusCode := httpRes.statusCode,
             status := httpRes.status }, 0⟩ ∧
    ClientGo.response resKind httpRes unm =
      ⟨.ok { res := default, statusCode := httpRes.statusCode,
             status := httpRes.status }, 0⟩ := by
  constructor
  · simp [response, h204]
  · simp [ClientGo.response, h204]

/-- Witness for C8: a concrete 204 response, against a request whose decode
function would fail if called, yields the zero-value payload with zero
decode calls in both variants. -/
theorem no_content_skips_decode_witness :
    response ⟨204, "204 No Content", ""⟩
      (NewRequest "/foo" "GET" .nilInterface
        probeUnmarshal []) =
      ⟨.ok { res := default, statusCode := 204,
             status := "204 No Content" }, 0⟩ ∧
    ClientGo.response .other ⟨204, "204 No Content", ""⟩
      probeUnmarshal =
      ⟨.ok { res := default, statusCode := 204,
             status := "204 No Content" }, 0⟩ := by
  exact no_content_skips_decode ⟨204, "204 No Content", ""⟩
    (NewRequest "/foo" "GET" .nilInterface probeUnmarshal [])
    .other probeUnmarshal rfl

/-- C10: in the current variant the no-body decision is the nil-interface
test any(req.req) != nil: an untyped nil payload skips the body and the
encode function; a typed nil pointer payload is still handed to the encode
function (one call), and with the default JSON codec the built call carries
the non-empty body null. -/
theorem nil_interface_vs_typed_nil_body {Res : Type} (client : Client)
    (req : Request Res)
    (hmw : ∀ m ∈ client.requestMiddlewares, preservesBody m) :
    (req.req = .nilInterface →
      (newHTTPRequest client req).marshalCalls = 0 ∧
      ∀ hr, (newHTTPRequest client req).result = .ok hr → hr.body = none) ∧
    (req.req = .nilPointer →
      (newHTTPRequest client req).marshalCalls = 1) ∧
    (req.req = .nilPointer → req.marshalRequest = defaultMarshalJSON →
      ∀ hr, (newHTTPRequest client req).result = .ok hr →
        hr.body = some "null" ∧ ¬ (some "null" = (none : Option String))) := by
  refine ⟨?_, ?_, ?_⟩
  · intro hnil
    constructor
    · simp [newHTTPRequest, hnil, GoValue.isNilInterface]
    · intro hr h
      simp only [newHTTPRequest, hnil, GoValue.isNilInterface, if_pos] at h
      exact finishHTTPRequest_body _ _ _ _ hmw _ _ h
  · intro hptr
    match hm : req.marshalRequest req.req with
    | .error e => simp [newHTTPRequest, hptr, GoValue.isNilInterface, hptr ▸ hm]
    | .ok s => simp [newHTTPRequest, hptr, GoValue.isNilInterface, hptr ▸ hm]
  · intro hptr hdef hr h
    simp only [newHTTPRequest, hptr, GoValue.isNilInterface, hdef,
      defaultMarshalJSON] at h
    refine ⟨?_, by simp⟩
    have := finishHTTPRequest_body _ _ _ _ hmw _ _ h
    simpa using this

/-- Witness for C10: a concrete client without middlewares; the nil
interface payload gives zero marshal calls, and the typed nil pointer
payload with the default codec gives one marshal call and the body null. -/
theorem nil_interface_vs_typed_nil_body_witness :
    ((newHTTPRequest defaultClient
        (NewRequest "/a" "POST" .nilInterface
          probeUnmarshal [])).marshalCalls = 0) ∧
    ((newHTTPRequest defaultClient
        (NewRequest "/a" "POST" .nilPointer
          probeUnmarshal [])).marshalCalls = 1) ∧
    (∀ hr, (newHTTPRequest defaultClient
        (NewRequest "/a" "POST" .nilPointer
          probeUnmarshal [])).result = .ok hr → hr.body = some "null") := by
  have hmw : ∀ m ∈ defaultClient.requestMiddlewares, preservesBody m := by
    intro m hm
    simp [defaultClient] at hm
  refine ⟨?_, ?_, ?_⟩
  · exact ((nil_interface_vs_typed_nil_body defaultClient
      (NewRequest "/a" "POST" .nilInterface probeUnmarshal []) hmw).1 rfl).1
  · exact (nil_interface_vs_typed_nil_body defaultClient
      (NewRequest "/a" "POST" .nilPointer probeUnmarshal []) hmw).2.1 rfl
  · intro hr h
    exact ((nil_interface_vs_typed_nil_body defaultClient
      (NewRequest "/a" "POST" .nilPointer probeUnmarshal []) hmw).2.2
      rfl rfl hr h).1

/-- C5: the default retry function installed by New aborts (returns a
non-nil error) exactly when the HTTP response is present with status code
400, in which case the returned error is the httpError carrying the
response status text; in every other case it returns nil, meaning retry. -/
theorem default_retry_aborts_iff_status_400
    (httpRes : Option HTTPRes) (err : Option GoErr) :
    (defaultRetryFunc httpRes err ≠ none ↔
      ∃ r, httpRes = some r ∧ r.statusCode = 400) ∧
    (∀ r, httpRes = some r → r.statusCode = 400 →
      defaultRetryFunc httpRes err = some (.httpErr r.status)) := by
  constructor
  · constructor
    · intro h
      match httpRes with
      | none => simp [defaultRetryFunc] at h
      | some r =>
        refine ⟨r, rfl, ?_⟩
        by_contra hne
        simp [defaultRetryFunc, hne] at h
    · rintro ⟨r, rfl, h400⟩
      simp [defaultRetryFunc, h400]
  · rintro r rfl h400
    simp [defaultRetryFunc, h400]

/-- Witness for C5: a 400 response aborts with the status text; a 500
response does not abort. -/
theorem default_retry_aborts_iff_status_400_witness :
    defaultRetryFunc (some ⟨400, "400 Bad Request", ""⟩) none =
      some (.httpErr "400 Bad Request") ∧
    ¬ defaultRetryFunc (some ⟨500, "500 Internal Server Error", ""⟩) none ≠ none := by
  constructor
  · exact (default_retry_aborts_iff_status_400
      (some ⟨400, "400 Bad Request", ""⟩) none).2 _ rfl rfl
  · intro h
    rcases (default_retry_aborts_iff_status_400
      (some ⟨500, "500 Internal Server Error", ""⟩) none).1.mp h with ⟨r, hr, h400⟩
    cases hr
    exact absurd h400 (by decide)

/-- C9: construction is fatal on programmer error: WithMaxAttempts is fatal
exactly when its value is below 1, WithRetry is fatal exactly when given a
nil function; for max ≥ 1 and a non-nil retry function both options are
produced and New installs the given values. -/
theorem option_preconditions (max : Int) (f : RetryFunc) :
    ((∃ e, WithMaxAttempts max = .error e) ↔ max < 1) ∧
    (∃ e, WithRetry none = .error e) ∧
    (1 ≤ max → ∃ o, WithMaxAttempts max = .ok o ∧
      (New [o]).maxAttempts = max ∧ (New [o]).retryFunc = defaultRetryFunc) ∧
    (∃ o, WithRetry (some f) = .ok o ∧ (New [o]).retryFunc = f ∧
      (New [o]).maxAttempts = 5) := by
  refine ⟨⟨?_, ?_⟩, ⟨"retry must not be nil", rfl⟩, ?_, ?_⟩
  · rintro ⟨e, he⟩
    by_contra hge
    simp [WithMaxAttempts, hge] at he
  · intro hlt
    exact ⟨"max must be >=1", by simp [WithMaxAttempts, hlt]⟩
  · intro hge
    have hnlt : ¬ max < 1 := not_lt.mpr hge
    refine ⟨fun c => { c with maxAttempts := max }, ?_, rfl, rfl⟩
    simp [WithMaxAttempts, hnlt]
  · exact ⟨fun c => { c with retryFunc := f }, rfl, rfl, rfl⟩

/-- Witness for C9: WithMaxAttempts 0 is fatal, WithRetry nil is fatal, and
a Client built with WithMaxAttempts 3 has maxAttempts 3. -/
theorem option_preconditions_witness :
    (∃ e, WithMaxAttempts 0 = .error e) ∧
    (∃ e, WithRetry none = .error e) ∧
    (∃ o, WithMaxAttempts 3 = .ok o ∧ (New [o]).maxAttempts = 3 ∧
      (New [o]).retryFunc = defaultRetryFunc) := by
  refine ⟨?_, ?_, ?_⟩
  · exact (option_preconditions 0 defaultRetryFunc).1.mpr (by decide)
  · exact (option_preconditions 0 defaultRetryFunc).2.1
  · exact (option_preconditions 3 defaultRetryFunc).2.2.1 (by decide)

/-- The triple returned by the do function for one attempt: the interpreted
Response, the raw HTTP response (both possibly absent) and the error. -/
structure AttemptOutcome (Res : Type) where
  res : Option (Response Res)
  httpRes : Option HTTPRes
  err : Option GoErr

/-- The do function (current variant), for one attempt: build the request
(failure wrapped as "new HTTP request"), transmit it (the transport result
for this attempt is an input, a failure being wrapped as
"execute HTTP request" with no response), then interpret the response
(failure wrapped as "get response", the raw response still returned). -/
def doAttempt {Res : Type} [Inhabited Res] (client : Client)
    (req : Request Res) (transport : Except GoErr HTTPRes) :
    AttemptOutcome Res :=
  match (newHTTPRequest client req).result with
  | .error e => ⟨none, none, some (.wrapped "new HTTP request" e)⟩
  | .ok _httpReq =>
    match transport with
    | .error e => ⟨none, none, some (.wrapped "execute HTTP request" e)⟩
    | .ok httpRes =>
      match (response httpRes req).result with
      | .error e => ⟨none, some httpRes, some (.wrapped "get response" e)⟩
      | .ok res => ⟨some res, some httpRes, none⟩

/-- What the attempt closure inside Do hands back to the backoff
collaborator, instrumented with the arguments given to the retry function
(none when the retry function was not consulted). -/
structure StepResult where
  err : Option GoErr
  retryArgs : Option (Option HTTPRes × Option GoErr)

/-- The attempt closure inside Do: when the attempt error is a context
cancellation, return an AbortError around it at once, without consulting
the retry function; otherwise consult the retry function with the response
and the error, a non-nil decision becoming an AbortError around the
decision; otherwise pass the attempt error through (nil meaning success,
non-nil meaning retry). -/
def attemptStep {Res : Type} (retry : RetryFunc) (o : AttemptOutcome Res) :
    StepResult :=
  match o.err with
  | some e =>
    if e.isCanceled then
      { err := some (.abortError e), retryArgs := none }
    else
      match retry o.httpRes (some e) with
      | some rerr => { err := some (.abortError rerr),
                       retryArgs := some (o.httpRes, some e) }
      | none => { err := some e, retryArgs := some (o.httpRes, some e) }
  | none =>
    match retry o.httpRes none with
    | some rerr => { err := some (.abortError rerr),
                     retryArgs := some (o.httpRes, none) }
    | none => { err := none, retryArgs := some (o.httpRes, none) }

/-- Terminal result of the backoff collaborator: success, an abort
propagating the distinguished AbortError, or the attempts-exhausted
outcome (gobackoff.MaxAttemptsError). -/
inductive BackoffTerminal : Type where
  | success : BackoffTerminal
  | aborted : GoErr → BackoffTerminal
  | exhausted : BackoffTerminal
deriving Repr, DecidableEq

/-- One run of the backoff collaborator: the terminal result, the number of
attempts actually made, and the attempt numbers at which the retry function
was consulted. -/
structure BackoffRun where
  result : BackoffTerminal
  attempts : Nat
  consulted : List Nat

/-- Modelled from the spec: the backoff collaborator (the out-of-scope
external scheduling primitive of section 6, gobackoff.Backoff.Do) runs the
attempt function once per attempt starting at attempt number att, with fuel
attempts remaining: a nil return is success and stops; the distinguished
abort error stops immediately and is propagated; any other error schedules
the next attempt until the budget is consumed, which yields the
attempts-exhausted outcome. Delay and jitter between attempts have no
bearing on any claim and are not modelled. -/
def backoffDo (step : Nat → StepResult) : Nat → Nat → BackoffRun
  | _, 0 => ⟨.exhausted, 0, []⟩
  | att, fuel + 1 =>
    let s := step att
    let c : List Nat := if s.retryArgs.isSome then [att] else []
    match s.err with
    | none => ⟨.success, 1, c⟩
    | some e =>
      if e.isAbort then ⟨.aborted e, 1, c⟩
      else if fuel = 0 then ⟨.exhausted, 1, c⟩
      else
        let rest := backoffDo step (att + 1) fuel
        ⟨rest.result, rest.attempts + 1, c ++ rest.consulted⟩

/-- What a whole Do invocation produces: the Response and error actually
returned, plus the instrumentation carried out of the backoff run. -/
structure DoOut (Res : Type) where
  res : Option (Response Res)
  err : Option GoErr
  attempts : Nat
  consulted : List Nat

/-- Do (orchestrator): run the attempt closure through the backoff
collaborator with the configured attempt budget; on a backoff error return
it with a nil Response, otherwise return the Response stored by the last
(successful) attempt. The per-attempt outcomes are an input indexed by the
attempt number (starting at 1), abstracting the external world. -/
def Do {Res : Type} (retry : RetryFunc) (maxAttempts : Nat)
    (outcomes : Nat → AttemptOutcome Res) : DoOut Res :=
  let run := backoffDo (fun i => attemptStep retry (outcomes i)) 1 maxAttempts
  match run.result with
  | .success => ⟨(outcomes run.attempts).res, none, run.attempts, run.consulted⟩
  | .aborted e => ⟨none, some e, run.attempts, run.consulted⟩
  | .exhausted => ⟨none, some .maxAttemptsError, run.attempts, run.consulted⟩

/-- Do composed with the attempt executor: the external world enters only
through the per-attempt transport results. -/
def DoFull {Res : Type} [Inhabited Res] (client : Client) (req : Request Res)
    (transports : Nat → Except GoErr HTTPRes) : DoOut Res :=
  Do client.retryFunc client.maxAttempts.toNat
    (fun i => doAttempt client req (transports i))

/-- Every error produced by the do function is a wrap, never itself the
distinguished abort kind, so the backoff loop never mistakes a plain
attempt failure for an abort. -/
theorem doAttempt_err_not_abort {Res : Type} [Inhabited Res]
    (client : Client) (req : Request Res) (transport : Except GoErr HTTPRes)
    (e : GoErr) (h : (doAttempt client req transport).err = some e) :
    e.isAbort = false := by
  unfold doAttempt at h
  match h1 : (newHTTPRequest client req).result with
  | .error e1 =>
    simp [h1] at h
    simp [← h, GoErr.isAbort]
  | .ok httpReq =>
    match h2 : transport with
    | .error e2 =>
      simp [h1, h2] at h
      simp [← h, GoErr.isAbort]
    | .ok httpRes =>
      match h3 : (response httpRes req).result with
      | .error e3 =>
        simp [h1, h2, h3] at h
        simp [← h, GoErr.isAbort]
      | .ok res =>
        simp [h1, h2, h3] at h

/-- A successful attempt carries a Response: when the do function returns a
nil error it returns a non-nil Response. -/
theorem doAttempt_ok_has_res {Res : Type} [Inhabited Res]
    (client : Client) (req : Request Res) (transport : Except GoErr HTTPRes)
    (h : (doAttempt client req transport).err = none) :
    ∃ r, (doAttempt client req transport).res = some r := by
  unfold doAttempt at h ⊢
  match h1 : (newHTTPRequest client req).result with
  | .error e1 => simp [h1] at h
  | .ok httpReq =>
    match h2 : transport with
    | .error e2 => simp [h1, h2] at h
    | .ok httpRes =>
      match h3 : (response httpRes req).result with
      | .error e3 => simp [h1, h2, h3] at h
      | .ok res => simp [h1, h2, h3]

/-- Forward run of the backoff loop: when the attempts before k all yield
plain (non-abort) errors and attempt k yields the distinguished abort
error, the run terminates at attempt k propagating that abort; and when the
step at k did not consult the retry function, k does not appear among the
consulted attempts. -/
theorem backoffDo_abort_at (step : Nat → StepResult) :
    ∀ (fuel att k : Nat) (a : GoErr),
      att ≤ k → k < att + fuel →
      (∀ j, att ≤ j → j < k →
        ∃ ej, (step j).err = some ej ∧ ej.isAbort = false) →
      (step k).err = some a → a.isAbort = true →
      (backoffDo step att fuel).result = .aborted a ∧
      (backoffDo step att fuel).attempts + att = k + 1 ∧
      ((step k).retryArgs = none → k ∉ (backoffDo step att fuel).consulted) := by
  intro fuel
  induction fuel with
  | zero =>
    intro att k a h1 h2 _ _ _
    omega
  | succ f ih =>
    intro att k a h1 h2 hprev hk ha
    rcases Nat.lt_or_ge att k with hlt | hge
    · obtain ⟨ej, hej, hejab⟩ := hprev att le_rfl hlt
      have hf : ¬ f = 0 := by omega
      have hrest := ih (att + 1) k a (by omega) (by omega)
        (fun j hj1 hj2 => hprev j (by omega) hj2) hk ha
      have hr1 := hrest.1
      have hr2 := hrest.2.1
      have hr3 := hrest.2.2
      refine ⟨?_, ?_, ?_⟩
      · simp [backoffDo, hej, hejab, hf]
        exact hr1
      · simp [backoffDo, hej, hejab, hf]
        omega
      · intro hargs
        simp only [backoffDo, hej, hejab, hf]
        simp only [Bool.false_eq_true, if_false, ite_false]
        intro hmem
        rcases List.mem_append.mp hmem with hm | hm
        · by_cases hs : (step att).retryArgs.isSome
          · simp [hs] at hm
            omega
          · simp [hs] at hm
        · exact hr3 hargs hm
    · have heq : att = k := le_antisymm h1 hge
      subst heq
      refine ⟨?_, ?_, ?_⟩
      · simp [backoffDo, hk, ha]
      · simp [backoffDo, hk, ha]
        omega
      · intro hargs
        simp [backoffDo, hk, ha, hargs]

/-- Inversion of the backoff loop: an aborted run ends at the attempt that
produced exactly that abort error, and a successful run ends at the attempt
that returned no error; in both cases the number of attempts made equals
that attempt number, counted from the starting attempt. -/
theorem backoffDo_inv (step : Nat → StepResult) :
    ∀ (fuel att : Nat),
      (∀ a, (backoffDo step att fuel).result = .aborted a →
        a.isAbort = true ∧
        ∃ kk, (backoffDo step att fuel).attempts + att = kk + 1 ∧
          att ≤ kk ∧ kk < att + fuel ∧ (step kk).err = some a) ∧
      ((backoffDo step att fuel).result = .success →
        ∃ kk, (backoffDo step att fuel).attempts + att = kk + 1 ∧
          att ≤ kk ∧ kk < att + fuel ∧ (step kk).err = none) := by
  intro fuel
  induction fuel with
  | zero =>
    intro att
    constructor
    · intro a h
      simp [backoffDo] at h
    · intro h
      simp [backoffDo] at h
  | succ f ih =>
    intro att
    constructor
    · intro a h
      match he : (step att).err with
      | none =>
        simp [backoffDo, he] at h
      | some e =>
        by_cases hab : e.isAbort
        · simp [backoffDo, he, hab] at h
          subst h
          refine ⟨hab, att, ?_, le_rfl, by omega, he⟩
          simp [backoffDo, he, hab]
          omega
        · by_cases hf : f = 0
          · simp [backoffDo, he, hab, hf] at h
          · simp only [backoffDo, he, hab, hf] at h
            simp only [Bool.false_eq_true, if_false, ite_false] at h
            obtain ⟨hab2, kk, hkk1, hkk2, hkk3, hkk4⟩ := (ih (att + 1)).1 a h
            refine ⟨hab2, kk, ?_, by omega, by omega, hkk4⟩
            simp only [backoffDo, he, hab, hf]
            simp only [Bool.false_eq_true, if_false, ite_false]
            omega
    · intro h
      match he : (step att).err with
      | none =>
        refine ⟨att, ?_, le_rfl, by omega, he⟩
        simp [backoffDo, he]
        omega
      | some e =>
        by_cases hab : e.isAbort
        · simp [backoffDo, he, hab] at h
        · by_cases hf : f = 0
          · simp [backoffDo, he, hab, hf] at h
          · simp only [backoffDo, he, hab, hf] at h
            simp only [Bool.false_eq_true, if_false, ite_false] at h
            obtain ⟨kk, hkk1, hkk2, hkk3, hkk4⟩ := (ih (att + 1)).2 h
            refine ⟨kk, ?_, by omega, by omega, hkk4⟩
            simp only [backoffDo, he, hab, hf]
            simp only [Bool.false_eq_true, if_false, ite_false]
            omega

/-- A step with no error comes from an attempt with no error. -/
theorem attemptStep_none_inv {Res : Type} (retry : RetryFunc)
    (o : AttemptOutcome Res) (h : (attemptStep retry o).err = none) :
    o.err = none := by
  unfold attemptStep at h
  match ho : o.err with
  | none => rfl
  | some e =>
    simp only [ho] at h
    by_cases hc : e.isCanceled
    · simp [hc] at h
    · simp only [hc, Bool.false_eq_true, if_false, ite_false] at h
      match hr : retry o.httpRes (some e) with
      | some rerr => simp [hr] at h
      | none => simp [hr] at h

/-- A step that produced the distinguished abort error did so either
because the attempt was cancelled (and the abort carries that cancellation
error) or because the retry function, consulted with the response and error
of the attempt, returned that error — provided the attempt error itself is
never of the abort kind, as the do function guarantees. -/
theorem attemptStep_abort_inv {Res : Type} (retry : RetryFunc)
    (o : AttemptOutcome Res) (inner : GoErr)
    (hshape : ∀ x, o.err = some x → x.isAbort = false)
    (h : (attemptStep retry o).err = some (.abortError inner)) :
    (∃ e, o.err = some e ∧ e.isCanceled = true ∧ inner = e) ∨
    retry o.httpRes o.err = some inner := by
  unfold attemptStep at h
  match ho : o.err with
  | some e =>
    simp only [ho] at h ⊢
    by_cases hc : e.isCanceled
    · simp only [hc, if_true, ite_true] at h
      left
      refine ⟨e, rfl, hc, ?_⟩
      cases h
      rfl
    · simp only [hc, Bool.false_eq_true, if_false, ite_false] at h
      match hr : retry o.httpRes (some e) with
      | some rerr =>
        simp only [hr] at h
        right
        cases h
        rfl
      | none =>
        simp only [hr] at h
        cases h
        have := hshape _ ho
        simp [GoErr.isAbort] at this
  | none =>
    simp only [ho] at h ⊢
    match hr : retry o.httpRes none with
    | some rerr =>
      simp only [hr] at h
      right
      cases h
      rfl
    | none => simp [hr] at h

/-- C1: when an attempt fails because the caller context was cancelled
(after any number of plainly-failing attempts before it), Do aborts at once
carrying the cancellation error: the returned error is the AbortError
around that very error, no Response is returned, no further attempts are
made, and the retry function is not consulted for the cancelled attempt —
whatever the retry function would have answered. -/
theorem cancellation_aborts_without_retry_consult {Res : Type}
    (retry : RetryFunc) (maxAttempts k : Nat)
    (outcomes : Nat → AttemptOutcome Res) (e : GoErr)
    (hk1 : 1 ≤ k) (hk2 : k ≤ maxAttempts)
    (hprev : ∀ j, 1 ≤ j → j < k →
      ∃ ej, (attemptStep retry (outcomes j)).err = some ej ∧
        ej.isAbort = false)
    (hcanc : (outcomes k).err = some e) (he : e.isCanceled = true) :
    (Do retry maxAttempts outcomes).err = some (.abortError e) ∧
    (Do retry maxAttempts outcomes).res = none ∧
    (Do retry maxAttempts outcomes).attempts = k ∧
    k ∉ (Do retry maxAttempts outcomes).consulted := by
  have hstep1 : (attemptStep retry (outcomes k)).err =
      some (.abortError e) := by
    simp [attemptStep, hcanc, he]
  have hstep2 : (attemptStep retry (outcomes k)).retryArgs = none := by
    simp [attemptStep, hcanc, he]
  have hrun := backoffDo_abort_at (fun i => attemptStep retry (outcomes i))
    maxAttempts 1 k (.abortError e) hk1 (by omega) hprev hstep1 rfl
  have hres := hrun.1
  have hatt := hrun.2.1
  have hcons := hrun.2.2 hstep2
  refine ⟨?_, ?_, ?_, ?_⟩
  · simp [Do, hres]
  · simp [Do, hres]
  · simp [Do, hres]
    omega
  · simp [Do, hres]
    exact hcons

/-- Retry function for the C1 witness: always asks for a retry. -/
def c1Retry : RetryFunc := fun _ _ => none

/-- Attempt outcomes for the C1 witness: attempt 1 fails with a plain
transport error, attempt 2 fails with a cancellation. -/
def c1Outcomes : Nat → AttemptOutcome Unit := fun j =>
  if j = 2 then ⟨none, none, some (.wrapped "execute HTTP request" .canceled)⟩
  else ⟨none, none, some (.wrapped "execute HTTP request" (.simple "boom"))⟩

/-- Witness for C1: with budget 3 and a retry function that always asks for
a retry, a cancellation at attempt 2 makes Do return the AbortError around
the cancellation after exactly 2 attempts, without consulting the retry
function at attempt 2. -/
theorem cancellation_aborts_without_retry_consult_witness :
    (Do c1Retry 3 c1Outcomes).err =
      some (.abortError (.wrapped "execute HTTP request" .canceled)) ∧
    (Do c1Retry 3 c1Outcomes).res = none ∧
    (Do c1Retry 3 c1Outcomes).attempts = 2 ∧
    2 ∉ (Do c1Retry 3 c1Outcomes).consulted :=
  cancellation_aborts_without_retry_consult c1Retry 3 2 c1Outcomes
    (.wrapped "execute HTTP request" .canceled)
    (by decide) (by decide)
    (by
      intro j hj1 hj2
      have hj : j = 1 := by omega
      subst hj
      exact ⟨.wrapped "execute HTTP request" (.simple "boom"), rfl, rfl⟩)
    rfl rfl

/-- C6: every Do invocation returns exactly one of a populated Response
with nil error or a nil Response with a non-nil error; a terminal error is
either the distinguished AbortError or the attempts-exhausted
MaxAttemptsError, and those two kinds are distinguishable (only the first
is of the abort kind, which is also what distinguishes an abort from any
plain attempt error handed to the retry function); and an AbortError
carries either the cancellation error of its attempt or exactly the error
returned by the retry function for that attempt. -/
theorem do_outcome_dichotomy {Res : Type} [Inhabited Res] (client : Client)
    (req : Request Res) (transports : Nat → Except GoErr HTTPRes) :
    ((∃ r, (DoFull client req transports).res = some r ∧
        (DoFull client req transports).err = none) ∨
      ((DoFull client req transports).res = none ∧
        ∃ te, (DoFull client req transports).err = some te ∧
          ((∃ inner, te = .abortError inner) ∨ te = .maxAttemptsError))) ∧
    ((∀ inner : GoErr, (GoErr.abortError inner).isAbort = true) ∧
      GoErr.maxAttemptsError.isAbort = false ∧
      (∀ e, (doAttempt client req (transports 1)).err = some e →
        e.isAbort = false)) ∧
    (∀ inner, (DoFull client req transports).err =
        some (.abortError inner) →
      (∃ e, (doAttempt client req
          (transports (DoFull client req transports).attempts)).err =
            some e ∧ e.isCanceled = true ∧ inner = e) ∨
      client.retryFunc
        (doAttempt client req
          (transports (DoFull client req transports).attempts)).httpRes
        (doAttempt client req
          (transports (DoFull client req transports).attempts)).err =
        some inner) := by
  have hshape : ∀ i x, (doAttempt client req (transports i)).err = some x →
      x.isAbort = false :=
    fun i x hx => doAttempt_err_not_abort client req (transports i) x hx
  have hinv := backoffDo_inv
    (fun i => attemptStep client.retryFunc (doAttempt client req (transports i)))
    client.maxAttempts.toNat 1
  rcases hr : (backoffDo (fun i => attemptStep client.retryFunc
      (doAttempt client req (transports i))) 1 client.maxAttempts.toNat).result
    with _ | a | _
  · obtain ⟨kk, hkk1, hkk2, hkk3, hkk4⟩ := hinv.2 hr
    have hout := attemptStep_none_inv client.retryFunc _ hkk4
    obtain ⟨r, hresx⟩ := doAttempt_ok_has_res client req (transports kk) hout
    have hatt : (backoffDo (fun i => attemptStep client.retryFunc
        (doAttempt client req (transports i))) 1
        client.maxAttempts.toNat).attempts = kk := by omega
    refine ⟨Or.inl ⟨r, ?_, ?_⟩, ⟨fun inner => rfl, rfl, hshape 1⟩, ?_⟩
    · simp [DoFull, Do, hr, hatt]
      exact hresx
    · simp [DoFull, Do, hr]
    · intro inner h
      simp [DoFull, Do, hr] at h
  · obtain ⟨hab, kk, hkk1, hkk2, hkk3, hkk4⟩ := hinv.1 a hr
    obtain ⟨inner0, rfl⟩ : ∃ inner0, a = .abortError inner0 := by
      cases a <;> first
        | exact ⟨_, rfl⟩
        | simp [GoErr.isAbort] at hab
    have hatt : (backoffDo (fun i => attemptStep client.retryFunc
        (doAttempt client req (transports i))) 1
        client.maxAttempts.toNat).attempts = kk := by omega
    have hDatt : (DoFull client req transports).attempts = kk := by
      simp [DoFull, Do, hr]
      omega
    refine ⟨Or.inr ⟨?_, .abortError inner0, ?_, Or.inl ⟨inner0, rfl⟩⟩,
      ⟨fun inner => rfl, rfl, hshape 1⟩, ?_⟩
    · simp [DoFull, Do, hr]
    · simp [DoFull, Do, hr]
    · intro inner2 h
      have h2 : (GoErr.abortError inner0) = .abortError inner2 := by
        have hne : (DoFull client req transports).err =
            some (.abortError inner0) := by
          simp [DoFull, Do, hr]
        rw [hne] at h
        cases h
        rfl
      cases h2
      rw [hDatt]
      exact attemptStep_abort_inv client.retryFunc
        (doAttempt client req (transports kk)) inner0 (hshape kk) hkk4
  · refine ⟨Or.inr ⟨?_, .maxAttemptsError, ?_, Or.inr rfl⟩,
      ⟨fun inner => rfl, rfl, hshape 1⟩, ?_⟩
    · simp [DoFull, Do, hr]
    · simp [DoFull, Do, hr]
    · intro inner h
      have hne : (DoFull client req transports).err =
          some .maxAttemptsError := by
        simp [DoFull, Do, hr]
      rw [hne] at h
      cases h

/-- Request used by the C6 and C7 witnesses: a plain value payload with the
default JSON codec and a decode function that would fail if invoked. -/
def witnessReq : Request GoValue :=
  NewRequest "/w" "GET" (.value "v") probeUnmarshal []

/-- Witness for C6: with the default client and a transport that always
answers 204, DoFull satisfies the whole dichotomy statement at a concrete
input. -/
theorem do_outcome_dichotomy_witness :
    ((∃ r, (DoFull defaultClient witnessReq
        (fun _ => .ok ⟨204, "204 No Content", ""⟩)).res = some r ∧
        (DoFull defaultClient witnessReq
          (fun _ => .ok ⟨204, "204 No Content", ""⟩)).err = none) ∨
      ((DoFull defaultClient witnessReq
          (fun _ => .ok ⟨204, "204 No Content", ""⟩)).res = none ∧
        ∃ te, (DoFull defaultClient witnessReq
            (fun _ => .ok ⟨204, "204 No Content", ""⟩)).err = some te ∧
          ((∃ inner, te = .abortError inner) ∨ te = .maxAttemptsError))) :=
  (do_outcome_dichotomy defaultClient witnessReq
    (fun _ => .ok ⟨204, "204 No Content", ""⟩)).1

/-- C7: failures are never silently swallowed. For every attempt, any
failure that is not a cancellation is handed to the retry function together
with the (possibly nil) HTTP response; a cancellation short-circuits the
retry function; and each failure channel — request build (encode or
middleware), transport, decode — surfaces as the attempt error with its
identifying wrap, the decode case keeping the HTTP response available to
the retry function. -/
theorem failures_reach_retry_func {Res : Type} [Inhabited Res]
    (retry : RetryFunc) (client : Client) (req : Request Res)
    (transport : Except GoErr HTTPRes) :
    (∀ e, (doAttempt client req transport).err = some e →
      e.isCanceled = false →
      (attemptStep retry (doAttempt client req transport)).retryArgs =
        some ((doAttempt client req transport).httpRes, some e)) ∧
    (∀ e, (doAttempt client req transport).err = some e →
      e.isCanceled = true →
      (attemptStep retry (doAttempt client req transport)).retryArgs =
        none) ∧
    (∀ e, (newHTTPRequest client req).result = .error e →
      (doAttempt client req transport).err =
        some (.wrapped "new HTTP request" e)) ∧
    (∀ hq e, (newHTTPRequest client req).result = .ok hq →
      transport = .error e →
      (doAttempt client req transport).err =
        some (.wrapped "execute HTTP request" e)) ∧
    (∀ hq hres e, (newHTTPRequest client req).result = .ok hq →
      transport = .ok hres → (response hres req).result = .error e →
      (doAttempt client req transport).err =
        some (.wrapped "get response" e) ∧
      (doAttempt client req transport).httpRes = some hres) ∧
    (∀ e, req.req.isNilInterface = false →
      req.marshalRequest req.req = .error e →
      (newHTTPRequest client req).result =
        .error (.wrapped "encode request body" e)) := by
  refine ⟨?_, ?_, ?_, ?_, ?_, ?_⟩
  · intro e hsome hcanc
    unfold attemptStep
    rw [hsome]
    simp only [hcanc, Bool.false_eq_true, if_false, ite_false]
    rcases hretry : retry (doAttempt client req transport).httpRes (some e)
      with _ | rerr <;> simp [hretry]
  · intro e hsome hcanc
    unfold attemptStep
    rw [hsome]
    simp [hcanc]
  · intro e h
    simp [doAttempt, h]
  · intro hq e hok htr
    simp [doAttempt, hok, htr]
  · intro hq hres e hok htr hresp
    constructor
    · simp [doAttempt, hok, htr, hresp]
    · simp [doAttempt, hok, htr, hresp]
  · intro e hnil hmar
    simp [newHTTPRequest, hnil, hmar]

/-- Witness for C7: a concrete transport failure is handed to the retry
function with the wrapped transport error and no response, and a concrete
cancelled transmission short-circuits the retry function. -/
theorem failures_reach_retry_func_witness :
    (attemptStep defaultRetryFunc
      (doAttempt defaultClient witnessReq
        (.error (.simple "conn refused")))).retryArgs =
      some ((doAttempt defaultClient witnessReq
          (.error (.simple "conn refused"))).httpRes,
        some (.wrapped "execute HTTP request" (.simple "conn refused"))) ∧
    (attemptStep defaultRetryFunc
      (doAttempt defaultClient witnessReq (.error .canceled))).retryArgs =
      none := by
  constructor
  · exact (failures_reach_retry_func defaultRetryFunc defaultClient
      witnessReq (.error (.simple "conn refused"))).1
      (.wrapped "execute HTTP request" (.simple "conn refused")) rfl rfl
  · exact (failures_reach_retry_func defaultRetryFunc defaultClient
      witnessReq (.error .canceled)).2.1
      (.wrapped "execute HTTP request" .canceled) rfl rfl

end Gojsonclient
